import Mathlib

/-!
# Verification of the Petri_Net grid / mixture / adjacency core

Shallow embedding of the grid-generation, area-weighted-overlap ("mixture") and
adjacency-matrix code of the repository (files `src/TOOL/Polygon.py`,
`MPAT/Polygon.py`, `src/TOOL/GenericGridAdjacencyMatrix.py`).

Numeric idealization: Python floats are modelled as rationals (`ℚ`).
Geometry objects (shapely) are modelled through a backend record bundling the
geometric primitives the code calls (`intersects`, `touches`,
`intersection(...).area`, `unary_union.area`, `box`, `Polygon`, bounds);
an executable instance `BoxBackend` implements them for axis-aligned
rectangles, which is exactly the geometry produced by the square-grid path.
-/

/- Batteries marks the `Rat` field operations `@[irreducible]`; restore
definitional unfolding so that concrete witnesses evaluate by `decide`. -/
attribute [local semireducible] Rat.add Rat.mul Rat.inv Rat.sub

/-- An axis-aligned rectangle `[xmin, xmax] × [ymin, ymax]` with rational
coordinates: the model of `shapely.geometry.box(xmin, ymin, xmax, ymax)`. -/
structure Box where
  xmin : ℚ
  ymin : ℚ
  xmax : ℚ
  ymax : ℚ
deriving DecidableEq

/-- A point lies in the (closed) box: boundary-inclusive membership. -/
def inClosure (b : Box) (p : ℚ × ℚ) : Prop :=
  b.xmin ≤ p.1 ∧ p.1 ≤ b.xmax ∧ b.ymin ≤ p.2 ∧ p.2 ≤ b.ymax

/-- A point lies in the topological interior of the box. -/
def inInterior (b : Box) (p : ℚ × ℚ) : Prop :=
  b.xmin < p.1 ∧ p.1 < b.xmax ∧ b.ymin < p.2 ∧ p.2 < b.ymax

/-- The spec's "touch adjacency": the two geometries share at least one point
but have no overlapping interior area (glossary of the design document;
DE-9IM `touches` for closed regions). -/
def touchesGeom (b1 b2 : Box) : Prop :=
  (∃ p, inClosure b1 p ∧ inClosure b2 p) ∧ ¬∃ p, inInterior b1 p ∧ inInterior b2 p

/-- A box is non-degenerate (positive width and height); grid cells built with
a positive cell size satisfy this. -/
def properBox (b : Box) : Prop := b.xmin < b.xmax ∧ b.ymin < b.ymax

instance (b : Box) : Decidable (properBox b) := by unfold properBox; infer_instance

/-- Arithmetic form of shapely `intersects` for two boxes
(closures have a common point). -/
def boxIntersects (b1 b2 : Box) : Bool :=
  decide (b1.xmin ≤ b2.xmax ∧ b2.xmin ≤ b1.xmax ∧ b1.ymin ≤ b2.ymax ∧ b2.ymin ≤ b1.ymax)

/-- Arithmetic form of "the interiors of the two boxes overlap". -/
def boxInteriorOverlap (b1 b2 : Box) : Bool :=
  decide (b1.xmin < b2.xmax ∧ b2.xmin < b1.xmax ∧ b1.ymin < b2.ymax ∧ b2.ymin < b1.ymax)

/-- Arithmetic form of shapely `touches` for two boxes. -/
def boxTouches (b1 b2 : Box) : Bool :=
  boxIntersects b1 b2 && !boxInteriorOverlap b1 b2

/-- Area of the intersection of two boxes: model of
`a.intersection(b).area` for rectangles. -/
def boxInterArea (b1 b2 : Box) : ℚ :=
  max 0 (min b1.xmax b2.xmax - max b1.xmin b2.xmin) *
    max 0 (min b1.ymax b2.ymax - max b1.ymin b2.ymin)

/-- Area of a box (`geometry.area`). -/
def boxArea (b : Box) : ℚ := (b.xmax - b.xmin) * (b.ymax - b.ymin)

/-- Insert a value into a sorted list (structural insertion sort step). -/
def insertSorted (x : ℚ) : List ℚ → List ℚ
  | [] => [x]
  | y :: ys => if x ≤ y then x :: y :: ys else y :: insertSorted x ys

/-- Insertion sort (kernel-computable). -/
def sortList (l : List ℚ) : List ℚ := l.foldr insertSorted []

/-- Area of the union of a list of boxes computed by coordinate compression:
the model of `GeoSeries.unary_union.area` for rectangle collections.  Every
elementary cell of the compressed lattice contributes its area iff it is
contained in some box of the list (repeated coordinates give zero-width
strips that contribute nothing). -/
def boxUnionArea (bs : List Box) : ℚ :=
  let xs := sortList (bs.flatMap (fun b => [b.xmin, b.xmax]))
  let ys := sortList (bs.flatMap (fun b => [b.ymin, b.ymax]))
  (xs.zip xs.tail).foldl (fun acc x =>
    acc + (ys.zip ys.tail).foldl (fun acc2 y =>
      if bs.any (fun b =>
          decide (b.xmin ≤ x.1) && decide (x.2 ≤ b.xmax) &&
          decide (b.ymin ≤ y.1) && decide (y.2 ≤ b.ymax)) then
        acc2 + (x.2 - x.1) * (y.2 - y.1)
      else acc2) 0) 0

/-- Bounds `(minx, miny, maxx, maxy)` of a box (`geometry.bounds`). -/
def boxBounds (b : Box) : ℚ × ℚ × ℚ × ℚ := (b.xmin, b.ymin, b.xmax, b.ymax)

/-- The geometric primitives the Python code obtains from shapely/geopandas.
The repository treats the geometry library as an external collaborator; the
pipeline definitions below are parametric in this backend, and `BoxBackend`
instantiates it executably for axis-aligned rectangles. -/
structure GeoBackend where
  G : Type
  beq : G → G → Bool
  intersects : G → G → Bool
  touches : G → G → Bool
  interArea : G → G → ℚ
  area : G → ℚ
  unionArea : List G → ℚ
  box : ℚ → ℚ → ℚ → ℚ → G
  poly : List (ℚ × ℚ) → G
  boundsOf : G → ℚ × ℚ × ℚ × ℚ

/-- Bounding box of a vertex list (used only to give `BoxBackend` a total
`Polygon` constructor; no claim about hexagonal geometry is settled through
it). -/
def vertsBoundingBox (vs : List (ℚ × ℚ)) : Box :=
  match vs with
  | [] => ⟨0, 0, 0, 0⟩
  | v :: rest =>
      rest.foldl (fun b w =>
        ⟨min b.xmin w.1, min b.ymin w.2, max b.xmax w.1, max b.ymax w.2⟩)
        ⟨v.1, v.2, v.1, v.2⟩

/-- The executable rectangle backend. `box` follows shapely's argument order
`box(minx, miny, maxx, maxy)`. -/
@[reducible] def BoxBackend : GeoBackend where
  G := Box
  beq := fun a b => decide (a = b)
  intersects := boxIntersects
  touches := boxTouches
  interArea := boxInterArea
  area := boxArea
  unionArea := boxUnionArea
  box := fun minx miny maxx maxy => ⟨minx, miny, maxx, maxy⟩
  poly := vertsBoundingBox
  boundsOf := boxBounds

/-! ## Adjacency matrix (`Polygon.calculate_adjacency_matrix`)

The method appears with an identical body in `src/TOOL/Polygon.py` and in
`MPAT/Polygon.py`: an `n × n` integer matrix of zeros; for every `i`, for
every `j` in `range(i+1, n)`, if the two geometries touch, entries `(i, j)`
and `(j, i)` are both set to `1`. -/

/-- The loop-order list of index pairs `(i, j)`, `i < j < n`, visited by the
double loop `for i in range(n): for j in range(i+1, n)`. -/
def pairsList (n : Nat) : List (Nat × Nat) :=
  (List.range n).flatMap (fun i => (List.range' (i + 1) (n - (i + 1))).map (fun j => (i, j)))

/-- Does the write for pair `p` hit matrix entry `(a, b)`?  The loop body
writes the two symmetric entries `(p.1, p.2)` and `(p.2, p.1)` at once. -/
def adjHit (p : Nat × Nat) (a b : Nat) : Bool :=
  (decide (a = p.1) && decide (b = p.2)) || (decide (a = p.2) && decide (b = p.1))

/-- One iteration of the inner loop body: if the touch test for the pair `p`
succeeds, set both symmetric entries to `1`. -/
def adjStep (t : Nat → Nat → Bool) (m : Nat → Nat → ℤ) (p : Nat × Nat) : Nat → Nat → ℤ :=
  if t p.1 p.2 then (fun a b => if adjHit p a b then 1 else m a b) else m

/-- `Polygon.calculate_adjacency_matrix`: matrix over the entity sequence,
entries addressed by 0-based position (the returned DataFrame relabels
rows/columns `1..n` without reordering). -/
def calculate_adjacency_matrix (B : GeoBackend) (g : List B.G) : Nat → Nat → ℤ :=
  (pairsList g.length).foldl
    (adjStep (fun i j => B.touches (g.getD i (B.box 0 0 0 0)) (g.getD j (B.box 0 0 0 0))))
    (fun _ _ => 0)

lemma foldl_adjStep (t : Nat → Nat → Bool) (a b : Nat) :
    ∀ (L : List (Nat × Nat)) (m : Nat → Nat → ℤ),
      L.foldl (adjStep t) m a b =
        if ∃ p ∈ L, t p.1 p.2 = true ∧ adjHit p a b = true then 1 else m a b
  | [], m => by simp
  | q :: L, m => by
    rw [List.foldl_cons, foldl_adjStep t a b L]
    by_cases hq : t q.1 q.2 = true ∧ adjHit q a b = true
    · have hstep : adjStep t m q a b = 1 := by
        unfold adjStep
        rw [if_pos hq.1]
        exact if_pos hq.2
      rw [hstep, ite_self]
      exact (if_pos ⟨q, List.mem_cons_self q L, hq⟩).symm
    · have hstep : adjStep t m q a b = m a b := by
        unfold adjStep
        by_cases h1 : t q.1 q.2 = true
        · rw [if_pos h1]
          have h2 : ¬adjHit q a b = true := fun h => hq ⟨h1, h⟩
          exact if_neg h2
        · rw [if_neg h1]
      rw [hstep]
      have hcond : (∃ p ∈ L, t p.1 p.2 = true ∧ adjHit p a b = true) ↔
          (∃ p ∈ q :: L, t p.1 p.2 = true ∧ adjHit p a b = true) := by
        constructor
        · rintro ⟨p, hp, hpt⟩
          exact ⟨p, List.mem_cons_of_mem _ hp, hpt⟩
        · rintro ⟨p, hp, hpt⟩
          rcases List.mem_cons.1 hp with rfl | hp'
          · exact absurd hpt hq
          · exact ⟨p, hp', hpt⟩
      exact if_congr hcond rfl rfl

lemma mem_pairsList {n a b : Nat} : (a, b) ∈ pairsList n ↔ a < b ∧ b < n := by
  unfold pairsList
  simp only [List.mem_flatMap, List.mem_range, List.mem_map, List.mem_range'_1, Prod.mk.injEq]
  constructor
  · rintro ⟨i, hi, j, ⟨hj1, hj2⟩, rfl, rfl⟩
    have : i + 1 + (n - (i + 1)) = n := by omega
    omega
  · rintro ⟨hab, hbn⟩
    refine ⟨a, by omega, b, ⟨by omega, ?_⟩, rfl, rfl⟩
    omega

/-- Characterization of the computed matrix: entry `(a, b)` is `1` exactly
when some visited pair `(i, j)`, `i < j < n`, passed the touch test and wrote
this entry; all other entries stay `0`. -/
lemma calcAdj_char (B : GeoBackend) (g : List B.G) (a b : Nat) :
    calculate_adjacency_matrix B g a b =
      if ∃ p ∈ pairsList g.length,
          B.touches (g.getD p.1 (B.box 0 0 0 0)) (g.getD p.2 (B.box 0 0 0 0)) = true ∧
          adjHit p a b = true
      then 1 else 0 := by
  unfold calculate_adjacency_matrix
  exact foldl_adjStep _ a b (pairsList g.length) (fun _ _ => 0)

/-! ## Box touch test versus the set-level touch relation -/

lemma boxIntersects_iff_closure {b1 b2 : Box} (h1 : properBox b1) (h2 : properBox b2) :
    boxIntersects b1 b2 = true ↔ ∃ p, inClosure b1 p ∧ inClosure b2 p := by
  unfold boxIntersects
  rw [decide_eq_true_iff]
  constructor
  · rintro ⟨hx1, hx2, hy1, hy2⟩
    refine ⟨(max b1.xmin b2.xmin, max b1.ymin b2.ymin),
      ⟨le_max_left _ _, ?_, le_max_left _ _, ?_⟩,
      ⟨le_max_right _ _, ?_, le_max_right _ _, ?_⟩⟩
    · exact max_le h1.1.le hx2
    · exact max_le h1.2.le hy2
    · exact max_le hx1 h2.1.le
    · exact max_le hy1 h2.2.le
  · rintro ⟨p, ⟨ha1, ha2, ha3, ha4⟩, ⟨hb1, hb2, hb3, hb4⟩⟩
    exact ⟨le_trans ha1 hb2, le_trans hb1 ha2, le_trans ha3 hb4, le_trans hb3 ha4⟩

lemma boxInteriorOverlap_iff {b1 b2 : Box} (h1 : properBox b1) (h2 : properBox b2) :
    boxInteriorOverlap b1 b2 = true ↔ ∃ p, inInterior b1 p ∧ inInterior b2 p := by
  unfold boxInteriorOverlap
  rw [decide_eq_true_iff]
  constructor
  · rintro ⟨hx1, hx2, hy1, hy2⟩
    have hx : max b1.xmin b2.xmin < min b1.xmax b2.xmax :=
      max_lt_iff.2 ⟨lt_min_iff.2 ⟨h1.1, hx1⟩, lt_min_iff.2 ⟨hx2, h2.1⟩⟩
    have hy : max b1.ymin b2.ymin < min b1.ymax b2.ymax :=
      max_lt_iff.2 ⟨lt_min_iff.2 ⟨h1.2, hy1⟩, lt_min_iff.2 ⟨hy2, h2.2⟩⟩
    have hmid1 : ∀ u v : ℚ, u < v → u < (u + v) / 2 := fun u v h => by linarith
    have hmid2 : ∀ u v : ℚ, u < v → (u + v) / 2 < v := fun u v h => by linarith
    refine ⟨((max b1.xmin b2.xmin + min b1.xmax b2.xmax) / 2,
             (max b1.ymin b2.ymin + min b1.ymax b2.ymax) / 2), ⟨?_, ?_, ?_, ?_⟩, ⟨?_, ?_, ?_, ?_⟩⟩
    · exact lt_of_le_of_lt (le_max_left _ _) (hmid1 _ _ hx)
    · exact lt_of_lt_of_le (hmid2 _ _ hx) (min_le_left _ _)
    · exact lt_of_le_of_lt (le_max_left _ _) (hmid1 _ _ hy)
    · exact lt_of_lt_of_le (hmid2 _ _ hy) (min_le_left _ _)
    · exact lt_of_le_of_lt (le_max_right _ _) (hmid1 _ _ hx)
    · exact lt_of_lt_of_le (hmid2 _ _ hx) (min_le_right _ _)
    · exact lt_of_le_of_lt (le_max_right _ _) (hmid1 _ _ hy)
    · exact lt_of_lt_of_le (hmid2 _ _ hy) (min_le_right _ _)
  · rintro ⟨p, ⟨ha1, ha2, ha3, ha4⟩, ⟨hb1, hb2, hb3, hb4⟩⟩
    exact ⟨lt_trans ha1 hb2, lt_trans hb1 ha2, lt_trans ha3 hb4, lt_trans hb3 ha4⟩

lemma boxTouches_iff {b1 b2 : Box} (h1 : properBox b1) (h2 : properBox b2) :
    boxTouches b1 b2 = true ↔ touchesGeom b1 b2 := by
  unfold boxTouches touchesGeom
  rw [Bool.and_eq_true, Bool.not_eq_true', ← Bool.not_eq_true,
    boxIntersects_iff_closure h1 h2, boxInteriorOverlap_iff h1 h2]

lemma touchesGeom_comm {b1 b2 : Box} : touchesGeom b1 b2 ↔ touchesGeom b2 b1 := by
  unfold touchesGeom
  constructor <;>
    exact fun ⟨⟨p, hp1, hp2⟩, hn⟩ => ⟨⟨p, hp2, hp1⟩, fun ⟨q, hq1, hq2⟩ => hn ⟨q, hq2, hq1⟩⟩

lemma adjHit_comm {p : Nat × Nat} {a b : Nat} : adjHit p a b = true ↔ adjHit p b a = true := by
  simp only [adjHit, Bool.or_eq_true, Bool.and_eq_true, decide_eq_true_iff]
  tauto

/-- C1.  `calculate_adjacency_matrix` over a sequence of (non-degenerate) grid
geometries produces a matrix whose entry `(i, j)` equals `1` exactly when
`i ≠ j` and the two geometries touch (share at least one point while their
interiors do not overlap), whose diagonal is `0`, and which is symmetric with
all entries in `{0, 1}`. -/
theorem C1_adjacency_matrix_touch (g : List Box)
    (hprop : ∀ b ∈ g, properBox b) (i j : Nat) (hi : i < g.length) (hj : j < g.length) :
    calculate_adjacency_matrix BoxBackend g i j = calculate_adjacency_matrix BoxBackend g j i ∧
    calculate_adjacency_matrix BoxBackend g i i = 0 ∧
    (calculate_adjacency_matrix BoxBackend g i j = 0 ∨
      calculate_adjacency_matrix BoxBackend g i j = 1) ∧
    (calculate_adjacency_matrix BoxBackend g i j = 1 ↔
      i ≠ j ∧ touchesGeom (g.getD i ⟨0, 0, 0, 0⟩) (g.getD j ⟨0, 0, 0, 0⟩)) := by
  have hmem : ∀ (k : Nat), k < g.length → g.getD k ⟨0, 0, 0, 0⟩ ∈ g := by
    intro k hk
    rw [List.getD_eq_getElem g _ hk]
    exact List.getElem_mem hk
  refine ⟨?_, ?_, ?_, ?_⟩
  · rw [calcAdj_char, calcAdj_char]
    refine if_congr ?_ rfl rfl
    constructor <;> rintro ⟨p, hp, ht, hh⟩ <;> exact ⟨p, hp, ht, adjHit_comm.1 hh⟩
  · rw [calcAdj_char]
    rw [if_neg]
    rintro ⟨⟨p1, p2⟩, hp, ht, hh⟩
    have hlt := (mem_pairsList.1 hp).1
    simp only [adjHit, Bool.or_eq_true, Bool.and_eq_true, decide_eq_true_iff] at hh
    omega
  · rw [calcAdj_char]
    by_cases hc : ∃ p ∈ pairsList g.length,
        BoxBackend.touches (g.getD p.1 (BoxBackend.box 0 0 0 0))
          (g.getD p.2 (BoxBackend.box 0 0 0 0)) = true ∧ adjHit p i j = true
    · right; exact if_pos hc
    · left; exact if_neg hc
  · rw [calcAdj_char]
    constructor
    · intro h
      by_cases hc : ∃ p ∈ pairsList g.length,
          BoxBackend.touches (g.getD p.1 (BoxBackend.box 0 0 0 0))
            (g.getD p.2 (BoxBackend.box 0 0 0 0)) = true ∧ adjHit p i j = true
      · obtain ⟨⟨p1, p2⟩, hp, ht, hh⟩ := hc
        obtain ⟨h12, h2n⟩ := mem_pairsList.1 hp
        have hprop1 := hprop _ (hmem p1 (lt_trans h12 h2n))
        have hprop2 := hprop _ (hmem p2 h2n)
        have htg : touchesGeom (g.getD p1 ⟨0, 0, 0, 0⟩) (g.getD p2 ⟨0, 0, 0, 0⟩) :=
          (boxTouches_iff hprop1 hprop2).1 ht
        simp only [adjHit, Bool.or_eq_true, Bool.and_eq_true, decide_eq_true_iff] at hh
        rcases hh with ⟨rfl, rfl⟩ | ⟨rfl, rfl⟩
        · exact ⟨Nat.ne_of_lt h12, htg⟩
        · exact ⟨Nat.ne_of_gt h12, touchesGeom_comm.1 htg⟩
      · rw [if_neg hc] at h
        exact absurd h (by norm_num)
    · rintro ⟨hne, htg⟩
      have hprop1 := hprop _ (hmem i hi)
      have hprop2 := hprop _ (hmem j hj)
      rcases Nat.lt_or_ge i j with hij | hge
      · refine if_pos ⟨(i, j), mem_pairsList.2 ⟨hij, hj⟩, ?_, by simp [adjHit]⟩
        exact (boxTouches_iff hprop1 hprop2).2 htg
      · have hji : j < i := by omega
        refine if_pos ⟨(j, i), mem_pairsList.2 ⟨hji, hi⟩, ?_, by simp [adjHit]⟩
        exact (boxTouches_iff hprop2 hprop1).2 (touchesGeom_comm.1 htg)

/-- Two unit squares sharing the edge `x = 1`: concrete input for the C1
witness. -/
def g0 : List Box := [⟨0, 0, 1, 1⟩, ⟨1, 0, 2, 1⟩]

theorem C1_adjacency_matrix_touch_witness :
    (∀ b ∈ g0, properBox b) ∧ 0 < g0.length ∧ 1 < g0.length ∧
    (calculate_adjacency_matrix BoxBackend g0 0 1 = calculate_adjacency_matrix BoxBackend g0 1 0 ∧
     calculate_adjacency_matrix BoxBackend g0 0 0 = 0 ∧
     (calculate_adjacency_matrix BoxBackend g0 0 1 = 0 ∨
       calculate_adjacency_matrix BoxBackend g0 0 1 = 1) ∧
     (calculate_adjacency_matrix BoxBackend g0 0 1 = 1 ↔
       0 ≠ 1 ∧ touchesGeom (g0.getD 0 ⟨0, 0, 0, 0⟩) (g0.getD 1 ⟨0, 0, 0, 0⟩))) :=
  ⟨by decide, by decide, by decide,
    C1_adjacency_matrix_touch g0 (by decide) 0 1 (by decide) (by decide)⟩

/-! ## Mixture calculators (`Polygon.get_grid_cell_mix`)

`MPAT/Polygon.py` normalizes each intersection area by the *sum* of
intersection areas ("coverage share"); `src/TOOL/Polygon.py` uses
`1 - intersection_area / unary_union(intersecting polygons).area`
("residual weight").  Both return `None` when no source polygon intersects
the cell and an all-zero dictionary when the denominator is exactly `0`. -/

/-- A row of the source GeoDataFrame: identifier (`GEOID`) plus geometry. -/
structure County (G : Type) where
  GEOID : String
  geometry : G

/-- Python dictionary assignment `d[k] = v`: overwrite the existing entry for
`k` if present, otherwise append `(k, v)`. -/
def dictInsert (d : List (String × ℚ)) (k : String) (v : ℚ) : List (String × ℚ) :=
  if d.any (fun e => e.1 == k) then d.map (fun e => if e.1 == k then (k, v) else e)
  else d ++ [(k, v)]

/-- Build a Python dict by inserting the key/value pairs in order. -/
def dictOf (l : List (String × ℚ)) : List (String × ℚ) :=
  l.foldl (fun d e => dictInsert d e.1 e.2) []

/-- `MPAT/Polygon.py::Polygon.get_grid_cell_mix`: rows of `gdf` intersecting
the cell; `None` when there are none; total = sum of the cell/polygon
intersection areas; all-zero dict when that total is `0`; otherwise each
intersecting polygon's proportion is its intersection area over the total. -/
def MPAT_get_grid_cell_mix (B : GeoBackend) (gdf : List (County B.G)) (cell : B.G) :
    Option (List (String × ℚ)) :=
  let inter := gdf.filter (fun c => B.intersects c.geometry cell)
  if inter.length = 0 then none
  else
    let total := (inter.map (fun c => B.interArea cell c.geometry)).sum
    if total = 0 then some (dictOf (inter.map (fun c => (c.GEOID, 0))))
    else some (dictOf (inter.map (fun c => (c.GEOID, B.interArea cell c.geometry / total))))

/-- `src/TOOL/Polygon.py::Polygon.get_grid_cell_mix`: same structure, but the
denominator is the area of the `unary_union` of the intersecting polygons
themselves, and the stored value is `1 - intersection_area / total_area`. -/
def TOOL_get_grid_cell_mix (B : GeoBackend) (gdf : List (County B.G)) (cell : B.G) :
    Option (List (String × ℚ)) :=
  let inter := gdf.filter (fun c => B.intersects c.geometry cell)
  if inter.length = 0 then none
  else
    let total := B.unionArea (inter.map (fun c => c.geometry))
    if total = 0 then some (dictOf (inter.map (fun c => (c.GEOID, 0))))
    else some (dictOf (inter.map (fun c => (c.GEOID, 1 - B.interArea cell c.geometry / total))))

lemma dictInsert_append {d : List (String × ℚ)} {k : String} {v : ℚ}
    (h : ∀ e ∈ d, e.1 ≠ k) : dictInsert d k v = d ++ [(k, v)] := by
  unfold dictInsert
  rw [if_neg]
  rw [List.any_eq_true]
  rintro ⟨e, he, hk⟩
  exact h e he (by simpa using hk)

lemma dictOf_go (l : List (String × ℚ)) :
    ∀ (d : List (String × ℚ)), ((d ++ l).map Prod.fst).Nodup →
      l.foldl (fun d e => dictInsert d e.1 e.2) d = d ++ l := by
  induction l with
  | nil => intro d _; simp
  | cons e rest ih =>
    intro d hnd
    rw [List.foldl_cons]
    have hke : ∀ x ∈ d, x.1 ≠ e.1 := by
      intro x hx heq
      have hmem1 : x.1 ∈ (d ++ e :: rest).map Prod.fst := List.mem_map_of_mem _ (by simp [hx])
      have hnd' := hnd
      rw [List.map_append] at hnd'
      have := List.disjoint_of_nodup_append hnd'
      exact this (List.mem_map_of_mem _ hx) (by simp [heq])
    rw [dictInsert_append hke]
    have heq : d ++ [(e.1, e.2)] = d ++ [e] := by simp
    rw [heq]
    have : (d ++ [e]) ++ rest = d ++ e :: rest := by simp
    rw [← this] at hnd ⊢
    exact ih (d ++ [e]) hnd

/-- With pairwise-distinct keys the Python dict is just the association list
in insertion order. -/
lemma dictOf_eq_self {l : List (String × ℚ)} (h : (l.map Prod.fst).Nodup) :
    dictOf l = l := by
  unfold dictOf
  have := dictOf_go l [] (by simpa using h)
  simpa using this

lemma lookup_map_pair {α : Type} (f : α → String) (g : α → ℚ) :
    ∀ (l : List α), ((l.map f).Nodup) → ∀ c ∈ l,
      (l.map (fun x => (f x, g x))).lookup (f c) = some (g c) := by
  intro l
  induction l with
  | nil => intro _ c hc; cases hc
  | cons a rest ih =>
    intro hnd c hc
    rw [List.map_cons] at hnd ⊢
    rcases List.mem_cons.1 hc with rfl | hc'
    · rw [List.lookup_cons]
      simp
    · rw [List.lookup_cons]
      have hne : (f c == f a) = false := by
        rw [beq_eq_false_iff_ne]
        intro heq
        have : f a ∈ rest.map f := heq ▸ List.mem_map_of_mem f hc'
        exact (List.nodup_cons.1 hnd).1 this
      simp only [hne]
      exact ih (List.nodup_cons.1 hnd).2 c hc'

lemma sum_map_div {α : Type} (l : List α) (f : α → ℚ) (t : ℚ) :
    (l.map (fun c => f c / t)).sum = (l.map f).sum / t := by
  induction l with
  | nil => simp
  | cons a rest ih => simp [ih, add_div]

lemma filter_map_nodup {G : Type} (gdf : List (County G)) (q : County G → Bool)
    (h : (gdf.map County.GEOID).Nodup) :
    ((gdf.filter q).map County.GEOID).Nodup :=
  List.Nodup.sublist (List.Sublist.map _ (List.filter_sublist gdf)) h

/-- C2.  For every cell whose coverage-share mixture is defined, the MPAT
mixture maps each intersecting polygon id to
`intersection_area / Σ intersection_area` (or to exactly `0` when the total
intersection area is exactly `0`), and when the total is nonzero the stored
values sum to `1` (exactly, in the rational idealization of float
arithmetic).  Source identifiers are assumed pairwise distinct, as in the
data model. -/
theorem C2_coverage_share_mixture (B : GeoBackend) (gdf : List (County B.G)) (cell : B.G)
    (hids : (gdf.map County.GEOID).Nodup) (m : List (String × ℚ))
    (hm : MPAT_get_grid_cell_mix B gdf cell = some m) :
    (∀ c ∈ gdf.filter (fun c => B.intersects c.geometry cell),
      m.lookup c.GEOID = some
        (if ((gdf.filter (fun c => B.intersects c.geometry cell)).map
              (fun c => B.interArea cell c.geometry)).sum = 0
         then 0
         else B.interArea cell c.geometry /
           ((gdf.filter (fun c => B.intersects c.geometry cell)).map
              (fun c => B.interArea cell c.geometry)).sum)) ∧
    (((gdf.filter (fun c => B.intersects c.geometry cell)).map
        (fun c => B.interArea cell c.geometry)).sum ≠ 0 → (m.map Prod.snd).sum = 1) ∧
    (((gdf.filter (fun c => B.intersects c.geometry cell)).map
        (fun c => B.interArea cell c.geometry)).sum = 0 → ∀ e ∈ m, e.2 = 0) := by
  unfold MPAT_get_grid_cell_mix at hm
  set inter := gdf.filter (fun c => B.intersects c.geometry cell) with hinter
  have hnd : (inter.map County.GEOID).Nodup := filter_map_nodup gdf _ hids
  by_cases hlen : inter.length = 0
  · rw [if_pos hlen] at hm; cases hm
  · rw [if_neg hlen] at hm
    set total := (inter.map (fun c => B.interArea cell c.geometry)).sum with htotal
    by_cases h0 : total = 0
    · rw [if_pos h0] at hm
      have hdict : dictOf (inter.map (fun c => (c.GEOID, (0 : ℚ)))) =
          inter.map (fun c => (c.GEOID, (0 : ℚ))) := by
        apply dictOf_eq_self
        simpa [List.map_map, Function.comp] using hnd
      rw [hdict] at hm
      obtain rfl := (Option.some_inj.1 hm).symm
      refine ⟨?_, fun ht => absurd h0 ht, ?_⟩
      · intro c hc
        rw [if_pos h0]
        exact lookup_map_pair County.GEOID (fun _ => 0) inter hnd c hc
      · intro _ e he
        obtain ⟨c, _, rfl⟩ := List.mem_map.1 he
        rfl
    · rw [if_neg h0] at hm
      have hdict : dictOf (inter.map (fun c => (c.GEOID, B.interArea cell c.geometry / total))) =
          inter.map (fun c => (c.GEOID, B.interArea cell c.geometry / total)) := by
        apply dictOf_eq_self
        simpa [List.map_map, Function.comp] using hnd
      rw [hdict] at hm
      obtain rfl := (Option.some_inj.1 hm).symm
      refine ⟨?_, ?_, fun ht => absurd ht h0⟩
      · intro c hc
        rw [if_neg h0]
        exact lookup_map_pair County.GEOID (fun c => B.interArea cell c.geometry / total)
          inter hnd c hc
      · intro _
        rw [List.map_map]
        have : ((fun e : String × ℚ => e.2) ∘ fun c : County B.G =>
            (c.GEOID, B.interArea cell c.geometry / total)) =
            fun c : County B.G => B.interArea cell c.geometry / total := rfl
        rw [this, sum_map_div, ← htotal, div_self h0]

/-- Two unit-square counties; the cell `[1/2, 3/2] × [0, 1]` straddles both
equally: concrete input for the C2 witness. -/
def gdfW : List (County Box) := [⟨"g1", ⟨0, 0, 1, 1⟩⟩, ⟨"g2", ⟨1, 0, 2, 1⟩⟩]

def cellW : Box := ⟨1/2, 0, 3/2, 1⟩

def mW : List (String × ℚ) := [("g1", 1/2), ("g2", 1/2)]

theorem C2_coverage_share_mixture_witness :
    (gdfW.map County.GEOID).Nodup ∧
    MPAT_get_grid_cell_mix BoxBackend gdfW cellW = some mW ∧
    ((gdfW.filter (fun c => BoxBackend.intersects c.geometry cellW)).map
      (fun c => BoxBackend.interArea cellW c.geometry)).sum ≠ 0 ∧
    (mW.map Prod.snd).sum = 1 :=
  ⟨by decide, by decide, by decide,
    (C2_coverage_share_mixture BoxBackend gdfW cellW (by decide) mW (by decide)).2.1
      (by decide)⟩

/-- C8.  A grid cell intersecting no source polygon gets the `None` sentinel
(not a zero-valued mapping) from both variants of `get_grid_cell_mix`,
whatever the backend and configuration. -/
theorem C8_no_intersection_sentinel (B : GeoBackend) (gdf : List (County B.G)) (cell : B.G)
    (h : ∀ c ∈ gdf, B.intersects c.geometry cell = false) :
    MPAT_get_grid_cell_mix B gdf cell = none ∧ TOOL_get_grid_cell_mix B gdf cell = none := by
  have hfil : gdf.filter (fun c => B.intersects c.geometry cell) = [] := by
    rw [List.filter_eq_nil_iff]
    intro c hc
    simp [h c hc]
  constructor
  · simp [MPAT_get_grid_cell_mix, hfil]
  · simp [TOOL_get_grid_cell_mix, hfil]

/-- A county far away from the unit-square cell: C8 witness input. -/
def gdfFar : List (County Box) := [⟨"g1", ⟨10, 10, 11, 11⟩⟩]

def cellFar : Box := ⟨0, 0, 1, 1⟩

theorem C8_no_intersection_sentinel_witness :
    (∀ c ∈ gdfFar, BoxBackend.intersects c.geometry cellFar = false) ∧
    (MPAT_get_grid_cell_mix BoxBackend gdfFar cellFar = none ∧
     TOOL_get_grid_cell_mix BoxBackend gdfFar cellFar = none) :=
  ⟨by decide, C8_no_intersection_sentinel BoxBackend gdfFar cellFar (by decide)⟩

/-- C4 (amended).  In the TOOL residual-weight variant, each intersecting
polygon is assigned `1 - intersection_area / union_area` where `union_area`
is the area of the unary union of the *intersecting source polygons
themselves* (not the sum of their intersection areas with the cell), provided
that union area is nonzero. -/
theorem C4_residual_weight_amended (B : GeoBackend) (gdf : List (County B.G)) (cell : B.G)
    (hids : (gdf.map County.GEOID).Nodup) (m : List (String × ℚ))
    (hm : TOOL_get_grid_cell_mix B gdf cell = some m)
    (h0 : B.unionArea ((gdf.filter (fun c => B.intersects c.geometry cell)).map
      (fun c => c.geometry)) ≠ 0) :
    ∀ c ∈ gdf.filter (fun c => B.intersects c.geometry cell),
      m.lookup c.GEOID = some (1 - B.interArea cell c.geometry /
        B.unionArea ((gdf.filter (fun c => B.intersects c.geometry cell)).map
          (fun c => c.geometry))) := by
  unfold TOOL_get_grid_cell_mix at hm
  set inter := gdf.filter (fun c => B.intersects c.geometry cell) with hinter
  have hnd : (inter.map County.GEOID).Nodup := filter_map_nodup gdf _ hids
  by_cases hlen : inter.length = 0
  · rw [if_pos hlen] at hm; cases hm
  · rw [if_neg hlen] at hm
    set total := B.unionArea (inter.map (fun c => c.geometry)) with htotal
    rw [if_neg h0] at hm
    have hdict : dictOf (inter.map (fun c => (c.GEOID, 1 - B.interArea cell c.geometry / total))) =
        inter.map (fun c => (c.GEOID, 1 - B.interArea cell c.geometry / total)) := by
      apply dictOf_eq_self
      simpa [List.map_map, Function.comp] using hnd
    rw [hdict] at hm
    obtain rfl := (Option.some_inj.1 hm).symm
    intro c hc
    exact lookup_map_pair County.GEOID
      (fun c => 1 - B.interArea cell c.geometry / total) inter hnd c hc

/-- One unit-square county and the cell `[0, 1/2] × [0, 1]` covering half of
it: the denominators of the two conventions differ here (union area `1`
versus summed intersection area `1/2`). -/
def gdfC4 : List (County Box) := [⟨"g1", ⟨0, 0, 1, 1⟩⟩]

def cellC4 : Box := ⟨0, 0, 1/2, 1⟩

/-- C4 counterexample: the code stores `1 - (1/2)/1 = 1/2` for the single
intersecting polygon, while the claimed formula
`1 - intersection_area / Σ intersection_area = 1 - (1/2)/(1/2)` evaluates to
`0`. -/
theorem C4_counterexample :
    TOOL_get_grid_cell_mix BoxBackend gdfC4 cellC4 = some [("g1", 1/2)] ∧
    1 - boxInterArea cellC4 (Box.mk 0 0 1 1) /
      ((gdfC4.filter (fun c => BoxBackend.intersects c.geometry cellC4)).map
        (fun c => BoxBackend.interArea cellC4 c.geometry)).sum = (0 : ℚ) ∧
    ((1 : ℚ)/2) ≠ 0 :=
  ⟨by decide, by decide, by decide⟩

theorem C4_residual_weight_amended_witness :
    (gdfC4.map County.GEOID).Nodup ∧
    BoxBackend.unionArea ((gdfC4.filter (fun c => BoxBackend.intersects c.geometry cellC4)).map
      (fun c => c.geometry)) ≠ 0 ∧
    (∀ c ∈ gdfC4.filter (fun c => BoxBackend.intersects c.geometry cellC4),
      ([("g1", (1 : ℚ)/2)] : List (String × ℚ)).lookup c.GEOID =
        some (1 - BoxBackend.interArea cellC4 c.geometry /
          BoxBackend.unionArea ((gdfC4.filter
            (fun c => BoxBackend.intersects c.geometry cellC4)).map (fun c => c.geometry)))) :=
  ⟨by decide, by decide,
    C4_residual_weight_amended BoxBackend gdfC4 cellC4 (by decide) [("g1", (1 : ℚ)/2)]
      (by decide) (by decide)⟩

/-! ## Grid construction (`Polygon.create_grid`, `Polygon.create_hex_grid`)

`MPAT/Polygon.py::__init__` validates the region source and stores
`int(np.ceil(np.sqrt(grid_size)))` as the linear subdivision count;
`src/TOOL/Polygon.py::__init__` stores `grid_size` unchanged.  `create_grid`
lays a dense lattice of square cells of edge `(lon_max - lon_min)/grid_size`
from `np.arange(lon_min, lon_max + cell_size, cell_size)` columns and the
analogous rows, assigns ids `1..n`, optionally keeps only cells intersecting
a source polygon (spatial join + `drop_duplicates('geometry')` + re-id), and
(MPAT: only when `US` is true) attaches the mixture column. -/

/-- `int(np.ceil(np.sqrt(n)))` for a natural number `n`: the least `k` with
`n ≤ k * k`, searched structurally so that it evaluates in the kernel. -/
def ceilSqrt (n : Nat) : Nat :=
  ((List.range (n + 1)).find? (fun k => n ≤ k * k)).getD n

/-- The configuration state of an `MPAT/Polygon.py::Polygon` object after
`__init__` (the GeoDataFrame itself is loaded from external files and is
passed separately to the methods below). -/
structure MPATPolygon where
  shapefile_path : Option String
  grid_size : Nat
  US : Bool
  stateabrev : Option (List String)
  countryiso : Option (List String)
  overlap : Bool
  crs : String
deriving DecidableEq

/-- `MPAT/Polygon.py::Polygon.__init__`: raises `ValueError` when `US` is
true and `countryiso` is not `None`, or when `US` is false and `countryiso`
is `None`; otherwise stores the attributes, with
`grid_size = int(np.ceil(np.sqrt(grid_size)))`. -/
def MPATPolygon.init (shapefile_path : Option String) (grid_size : Nat) (US : Bool)
    (stateabrev countryiso : Option (List String)) (overlap : Bool) (crs : String) :
    Except String MPATPolygon :=
  if countryiso ≠ none ∧ US = true then
    Except.error "US cannot be True when countryiso is not None."
  else if countryiso = none ∧ US = false then
    Except.error "US cannot be False when countryiso is None."
  else
    Except.ok ⟨shapefile_path, ceilSqrt grid_size, US, stateabrev, countryiso, overlap, crs⟩

/-- The configuration state of a `src/TOOL/Polygon.py::Polygon` object
(no validation, `grid_size` stored unchanged). -/
structure TOOLPolygon where
  shapefile_path : String
  grid_size : Nat
  US : Bool
  stateabrev : Option (List String)
  overlap : Bool
  crs : String

/-- A row of the grid GeoDataFrame: `ID` column, geometry, the `grid_area`
column (present only on hexagonal grids) and the `grid_cell_mix` column
(`none` while unattached; `some v` once the mixture column is written,
where `v = none` models a Python `None` cell value). -/
structure GridRow (G : Type) where
  ID : Nat
  geometry : G
  grid_area : Option ℚ
  mix : Option (Option (List (String × ℚ)))

/-- `np.arange(start, stop, step)` for a positive step:
`start + k*step` for `k < ⌈(stop - start)/step⌉`. -/
def arange (start stop step : ℚ) : List ℚ :=
  if 0 < step then
    (List.range (⌈(stop - start) / step⌉).toNat).map (fun k : ℕ => start + (k : ℚ) * step)
  else []

/-- `grid['ID'] = range(1, len(grid) + 1)` on a fresh list of geometries. -/
def withIDs {G : Type} (cells : List G) : List (GridRow G) :=
  cells.enum.map (fun e => ⟨e.1 + 1, e.2, none, none⟩)

/-- Re-assign `ID = 1..k` after filtering (`grid['ID'] = range(1, len+1)`). -/
def reassignIDs {G : Type} (rows : List (GridRow G)) : List (GridRow G) :=
  rows.enum.map (fun e => { e.2 with ID := e.1 + 1 })

/-- `gdf.total_bounds`: componentwise min/max of the per-geometry bounds
(the empty-frame case, NaN in geopandas, is mapped to zeros and excluded by
hypothesis wherever it matters). -/
def totalBounds (B : GeoBackend) (gdf : List (County B.G)) : ℚ × ℚ × ℚ × ℚ :=
  match gdf with
  | [] => (0, 0, 0, 0)
  | c :: rest =>
      rest.foldl (fun acc c2 =>
        let b := B.boundsOf c2.geometry
        (min acc.1 b.1, min acc.2.1 b.2.1, max acc.2.2.1 b.2.2.1, max acc.2.2.2 b.2.2.2))
        (B.boundsOf c.geometry)

/-- `cell_size = (lon_max - lon_min) / self.grid_size`. -/
def cellSize (B : GeoBackend) (gs : Nat) (gdf : List (County B.G)) : ℚ :=
  ((totalBounds B gdf).2.2.1 - (totalBounds B gdf).1) / (gs : ℚ)

/-- The dense square lattice of `create_grid`: columns
`np.arange(lon_min, lon_max + cell_size, cell_size)` (outer loop), rows
`np.arange(lat_min, lat_max + cell_size, cell_size)` (inner loop), each cell
`box(lon0, lat0, lon0 + cell_size, lat0 + cell_size)`, ids `1..n`. -/
def squareGridDense (B : GeoBackend) (gs : Nat) (gdf : List (County B.G)) :
    List (GridRow B.G) :=
  withIDs ((arange (totalBounds B gdf).1 ((totalBounds B gdf).2.2.1 + cellSize B gs gdf)
      (cellSize B gs gdf)).flatMap (fun lon0 =>
    (arange (totalBounds B gdf).2.1 ((totalBounds B gdf).2.2.2 + cellSize B gs gdf)
        (cellSize B gs gdf)).map (fun lat0 =>
      B.box lon0 lat0 (lon0 + cellSize B gs gdf) (lat0 + cellSize B gs gdf))))

/-- The number of rows of the dense lattice: the element count of
`np.arange(lat_min, lat_max + cell_size, cell_size)`. -/
def rowCount (B : GeoBackend) (gs : Nat) (gdf : List (County B.G)) : Nat :=
  (⌈((totalBounds B gdf).2.2.2 + cellSize B gs gdf - (totalBounds B gdf).2.1) /
    cellSize B gs gdf⌉).toNat

/-- `drop_duplicates('geometry')`: keep the first row carrying each distinct
geometry value. -/
def dedupByGeom (B : GeoBackend) (seen : List B.G) :
    List (GridRow B.G) → List (GridRow B.G)
  | [] => []
  | r :: rest =>
      if seen.any (fun g => B.beq r.geometry g) then dedupByGeom B seen rest
      else r :: dedupByGeom B (r.geometry :: seen) rest

/-- The overlap branch: `grid.sjoin(gdf, how='inner')` keeps the grid rows
intersecting at least one source polygon (in grid order, duplicated per
match), `drop_duplicates('geometry')` collapses the duplicates, and ids are
re-assigned `1..k`. -/
def overlapFilter (B : GeoBackend) (gdf : List (County B.G)) (rows : List (GridRow B.G)) :
    List (GridRow B.G) :=
  reassignIDs (dedupByGeom B []
    (rows.filter (fun r => gdf.any (fun c => B.intersects r.geometry c.geometry))))

/-- The dense flat-top hexagon lattice of `create_hex_grid`.  `hexSin` is the
float constant `np.sin(np.pi/3)` (a rational in IEEE arithmetic), kept as a
parameter.  Odd rows are shifted right by `1.5 * unit`; the `grid_area`
column records `grid.area`. -/
def hexGridDense (B : GeoBackend) (gs : Nat) (gdf : List (County B.G)) (hexSin : ℚ) :
    List (GridRow B.G) :=
  let bb := totalBounds B gdf
  let unit := (bb.2.2.1 - bb.1) / (gs : ℚ)
  let cols := arange ((⌊bb.1⌋ : ℤ) : ℚ) ((⌈bb.2.2.1⌉ : ℤ) : ℚ) (3 * unit)
  let rws := arange (((⌊bb.2.1⌋ : ℤ) : ℚ) / hexSin) (((⌈bb.2.2.2⌉ : ℤ) : ℚ) / hexSin) unit
  let hexs := cols.flatMap (fun col =>
    rws.enum.map (fun e =>
      let y := e.2
      let x0 := if e.1 % 2 = 0 then col else col + (3/2) * unit
      B.poly [(x0, y * hexSin), (x0 + unit, y * hexSin),
              (x0 + (3/2) * unit, (y + unit) * hexSin),
              (x0 + unit, (y + 2 * unit) * hexSin),
              (x0, (y + 2 * unit) * hexSin),
              (x0 - (1/2) * unit, (y + unit) * hexSin)]))
  hexs.enum.map (fun e => ⟨e.1 + 1, e.2, some (B.area e.2), none⟩)

/-- Dense tiling (square or hexagonal) followed by the optional overlap
filter: the grid sequence as it stands before any mixture column is
attached. -/
def gridStage (B : GeoBackend) (gs : Nat) (ov : Bool) (gdf : List (County B.G))
    (hexagonal : Bool) (hexSin : ℚ) : List (GridRow B.G) :=
  let grid := if hexagonal then hexGridDense B gs gdf hexSin else squareGridDense B gs gdf
  if ov then overlapFilter B gdf grid else grid

/-- `grid['grid_cell_mix'] = grid.apply(self.get_grid_cell_mix, axis=1)`
(MPAT convention). -/
def MPAT_attachMix (B : GeoBackend) (gdf : List (County B.G)) (r : GridRow B.G) :
    GridRow B.G :=
  { r with mix := some (MPAT_get_grid_cell_mix B gdf r.geometry) }

/-- Same column assignment with the TOOL mixture convention. -/
def TOOL_attachMix (B : GeoBackend) (gdf : List (County B.G)) (r : GridRow B.G) :
    GridRow B.G :=
  { r with mix := some (TOOL_get_grid_cell_mix B gdf r.geometry) }

/-- `MPAT/Polygon.py::create_grid`: mixture attached only when `US`. -/
def MPAT_create_grid (B : GeoBackend) (p : MPATPolygon) (gdf : List (County B.G)) :
    List (GridRow B.G) :=
  let grid := gridStage B p.grid_size p.overlap gdf false 0
  if p.US then grid.map (MPAT_attachMix B gdf) else grid

/-- `MPAT/Polygon.py::create_hex_grid`: mixture attached only when `US`. -/
def MPAT_create_hex_grid (B : GeoBackend) (p : MPATPolygon) (gdf : List (County B.G))
    (hexSin : ℚ) : List (GridRow B.G) :=
  let grid := gridStage B p.grid_size p.overlap gdf true hexSin
  if p.US then grid.map (MPAT_attachMix B gdf) else grid

/-- `MPAT/Polygon.py::get_grid_and_adj_matrix`: build the grid (square or
hexagonal), return `None, None` when it is empty, else the grid together
with its adjacency matrix. -/
def MPAT_get_grid_and_adj_matrix (B : GeoBackend) (p : MPATPolygon)
    (gdf : List (County B.G)) (hexagonal : Bool) (hexSin : ℚ) :
    Option (List (GridRow B.G) × (Nat → Nat → ℤ)) :=
  let grid := if hexagonal then MPAT_create_hex_grid B p gdf hexSin
              else MPAT_create_grid B p gdf
  if grid.isEmpty then none
  else some (grid, calculate_adjacency_matrix B (grid.map GridRow.geometry))

/-- `src/TOOL/Polygon.py::create_grid`: mixture attached unconditionally. -/
def TOOL_create_grid (B : GeoBackend) (p : TOOLPolygon) (gdf : List (County B.G)) :
    List (GridRow B.G) :=
  (gridStage B p.grid_size p.overlap gdf false 0).map (TOOL_attachMix B gdf)

/-- `src/TOOL/Polygon.py::create_hex_grid`. -/
def TOOL_create_hex_grid (B : GeoBackend) (p : TOOLPolygon) (gdf : List (County B.G))
    (hexSin : ℚ) : List (GridRow B.G) :=
  (gridStage B p.grid_size p.overlap gdf true hexSin).map (TOOL_attachMix B gdf)

/-- `src/TOOL/Polygon.py::get_grid_and_adj_matrix` (no emptiness check). -/
def TOOL_get_grid_and_adj_matrix (B : GeoBackend) (p : TOOLPolygon)
    (gdf : List (County B.G)) (hexagonal : Bool) (hexSin : ℚ) :
    List (GridRow B.G) × (Nat → Nat → ℤ) :=
  let grid := if hexagonal then TOOL_create_hex_grid B p gdf hexSin
              else TOOL_create_grid B p gdf
  (grid, calculate_adjacency_matrix B (grid.map GridRow.geometry))

/-- C10.  The MPAT constructor raises exactly when `US` is true with a
country filter present, or `US` is false with no country filter; on success
the stored subdivision count is `⌈√grid_size⌉` and the region flags are kept
unchanged. -/
theorem C10_constructor_region_validation (sp : Option String) (gs : Nat) (US : Bool)
    (sab ciso : Option (List String)) (ov : Bool) (crs : String) :
    ((∃ e, MPATPolygon.init sp gs US sab ciso ov crs = Except.error e) ↔
      ((US = true ∧ ciso ≠ none) ∨ (US = false ∧ ciso = none))) ∧
    (∀ p, MPATPolygon.init sp gs US sab ciso ov crs = Except.ok p →
      p.grid_size = ceilSqrt gs ∧ p.US = US ∧ p.countryiso = ciso) := by
  cases US <;> cases ciso <;> simp [MPATPolygon.init]

/-! ## Pipeline sequencing and determinism -/

/-- C9.  The grid/mixture/adjacency pipeline consults no randomness: two runs
of either pipeline variant on equal polygon inputs and equal
resolution/shape parameters return equal grids (hence equal id orderings and
mixture tables) and equal adjacency matrices. -/
theorem C9_pipeline_deterministic (B : GeoBackend) (p p' : MPATPolygon)
    (q q' : TOOLPolygon) (gdf gdf' : List (County B.G)) (hexagonal hexagonal' : Bool)
    (hexSin hexSin' : ℚ) (hp : p = p') (hq : q = q') (hgdf : gdf = gdf')
    (hhex : hexagonal = hexagonal') (hs : hexSin = hexSin') :
    MPAT_get_grid_and_adj_matrix B p gdf hexagonal hexSin =
      MPAT_get_grid_and_adj_matrix B p' gdf' hexagonal' hexSin' ∧
    Option.map (fun r => r.1.map GridRow.ID)
        (MPAT_get_grid_and_adj_matrix B p gdf hexagonal hexSin) =
      Option.map (fun r => r.1.map GridRow.ID)
        (MPAT_get_grid_and_adj_matrix B p' gdf' hexagonal' hexSin') ∧
    Option.map (fun r => r.1.map GridRow.mix)
        (MPAT_get_grid_and_adj_matrix B p gdf hexagonal hexSin) =
      Option.map (fun r => r.1.map GridRow.mix)
        (MPAT_get_grid_and_adj_matrix B p' gdf' hexagonal' hexSin') ∧
    TOOL_get_grid_and_adj_matrix B q gdf hexagonal hexSin =
      TOOL_get_grid_and_adj_matrix B q' gdf' hexagonal' hexSin' := by
  subst hp hq hgdf hhex hs
  exact ⟨rfl, rfl, rfl, rfl⟩

/-- A one-county frame over the unit square, used as concrete input by
several witnesses. -/
def gdfUnit : List (County Box) := [⟨"g1", ⟨0, 0, 1, 1⟩⟩]

/-- A valid non-US (`countryiso`) configuration, resolution 1, no overlap
filtering. -/
def pSerbia : MPATPolygon := ⟨none, 1, false, none, some ["SRB"], false, "EPSG:4326"⟩

/-- A valid US configuration, resolution 1, overlap filtering on. -/
def pRes1 : MPATPolygon := ⟨none, 1, true, none, none, true, "EPSG:4326"⟩

/-- A TOOL configuration with the same shape parameters. -/
def qTool : TOOLPolygon := ⟨"cb_2023_us_county_500k.shp", 1, true, none, true, "EPSG:4326"⟩

theorem C9_pipeline_deterministic_witness :
    MPAT_get_grid_and_adj_matrix BoxBackend pRes1 gdfUnit false 0 =
      MPAT_get_grid_and_adj_matrix BoxBackend pRes1 gdfUnit false 0 ∧
    Option.map (fun r => r.1.map GridRow.ID)
        (MPAT_get_grid_and_adj_matrix BoxBackend pRes1 gdfUnit false 0) =
      Option.map (fun r => r.1.map GridRow.ID)
        (MPAT_get_grid_and_adj_matrix BoxBackend pRes1 gdfUnit false 0) ∧
    Option.map (fun r => r.1.map GridRow.mix)
        (MPAT_get_grid_and_adj_matrix BoxBackend pRes1 gdfUnit false 0) =
      Option.map (fun r => r.1.map GridRow.mix)
        (MPAT_get_grid_and_adj_matrix BoxBackend pRes1 gdfUnit false 0) ∧
    TOOL_get_grid_and_adj_matrix BoxBackend qTool gdfUnit false 0 =
      TOOL_get_grid_and_adj_matrix BoxBackend qTool gdfUnit false 0 :=
  C9_pipeline_deterministic BoxBackend pRes1 pRes1 qTool qTool gdfUnit gdfUnit false false 0 0
    rfl rfl rfl rfl rfl

lemma mem_dedupByGeom (B : GeoBackend) :
    ∀ (seen : List B.G) (l : List (GridRow B.G)) (r : GridRow B.G),
      r ∈ dedupByGeom B seen l → r ∈ l
  | _, [], _, h => absurd h (List.not_mem_nil _)
  | seen, q :: l, r, h => by
    unfold dedupByGeom at h
    by_cases hcond : (seen.any (fun g => B.beq q.geometry g)) = true
    · rw [if_pos hcond] at h
      exact List.mem_cons_of_mem _ (mem_dedupByGeom B seen l r h)
    · rw [if_neg hcond] at h
      rcases List.mem_cons.1 h with rfl | h'
      · exact List.mem_cons_self _ _
      · exact List.mem_cons_of_mem _ (mem_dedupByGeom B _ l r h')

lemma mem_reassignIDs {G : Type} {rows : List (GridRow G)} {r : GridRow G}
    (h : r ∈ reassignIDs rows) : ∃ r' ∈ rows, r.geometry = r'.geometry ∧ r.mix = r'.mix := by
  unfold reassignIDs at h
  obtain ⟨e, he, rfl⟩ := List.mem_map.1 h
  refine ⟨e.2, ?_, rfl, rfl⟩
  have : e.2 ∈ rows.enum.map Prod.snd := List.mem_map_of_mem _ he
  rwa [List.enum_map_snd] at this

/-- Every row of the (pre-mixture) grid stage still has an unattached
`grid_cell_mix` column. -/
lemma gridStage_mix_none (B : GeoBackend) (gs : Nat) (ov : Bool) (gdf : List (County B.G))
    (hexagonal : Bool) (hexSin : ℚ) :
    ∀ r ∈ gridStage B gs ov gdf hexagonal hexSin, r.mix = none := by
  intro r hr
  have hdense : ∀ s ∈ (if hexagonal then hexGridDense B gs gdf hexSin
      else squareGridDense B gs gdf), GridRow.mix s = none := by
    intro s hs
    cases hexagonal
    · simp only [if_neg Bool.false_ne_true] at hs
      unfold squareGridDense withIDs at hs
      obtain ⟨e, _, rfl⟩ := List.mem_map.1 hs
      rfl
    · simp only [if_pos rfl] at hs
      unfold hexGridDense at hs
      obtain ⟨e, _, rfl⟩ := List.mem_map.1 hs
      rfl
  unfold gridStage at hr
  by_cases hov : ov = true
  · rw [if_pos hov] at hr
    unfold overlapFilter at hr
    obtain ⟨r', hr', _, hmix⟩ := mem_reassignIDs hr
    have hr'' := mem_dedupByGeom B _ _ _ hr'
    have := List.mem_filter.1 hr''
    rw [hmix]
    exact hdense _ this.1
  · rw [if_neg hov] at hr
    exact hdense _ hr

/-- C7 (amended).  Whenever the MPAT pipeline returns a result, the entity
sequence handed to `calculate_adjacency_matrix` is exactly the
post-overlap-filtering, post-deduplication grid sequence, and the adjacency
matrix is computed over precisely that sequence; the mixture column is
attached to every cell of that sequence when `US` is true, and attached to
no cell when `US` is false (`countryiso` runs). -/
theorem C7_pipeline_order_amended (B : GeoBackend) (p : MPATPolygon)
    (gdf : List (County B.G)) (hexagonal : Bool) (hexSin : ℚ)
    (g : List (GridRow B.G)) (adj : Nat → Nat → ℤ)
    (hrun : MPAT_get_grid_and_adj_matrix B p gdf hexagonal hexSin = some (g, adj)) :
    (p.US = true →
      g = (gridStage B p.grid_size p.overlap gdf hexagonal hexSin).map (MPAT_attachMix B gdf) ∧
      ∀ r ∈ g, r.mix.isSome = true) ∧
    (p.US = false →
      g = gridStage B p.grid_size p.overlap gdf hexagonal hexSin ∧
      ∀ r ∈ g, r.mix = none) ∧
    adj = calculate_adjacency_matrix B (g.map GridRow.geometry) := by
  have hgrid : (if hexagonal then MPAT_create_hex_grid B p gdf hexSin
      else MPAT_create_grid B p gdf) =
      (if p.US then (gridStage B p.grid_size p.overlap gdf hexagonal hexSin).map
        (MPAT_attachMix B gdf)
       else gridStage B p.grid_size p.overlap gdf hexagonal hexSin) := by
    cases hexagonal
    · simp only [if_neg Bool.false_ne_true]
      rfl
    · simp only [if_pos rfl]
      rfl
  unfold MPAT_get_grid_and_adj_matrix at hrun
  rw [hgrid] at hrun
  set grid := (if p.US then (gridStage B p.grid_size p.overlap gdf hexagonal hexSin).map
      (MPAT_attachMix B gdf)
    else gridStage B p.grid_size p.overlap gdf hexagonal hexSin) with hgdef
  by_cases hemp : grid.isEmpty = true
  · rw [if_pos hemp] at hrun; cases hrun
  · rw [if_neg hemp] at hrun
    obtain ⟨hg, hadj⟩ := Prod.mk.injEq .. ▸ Option.some_inj.1 hrun
    refine ⟨?_, ?_, ?_⟩
    · intro hUS
      rw [hgdef, if_pos hUS] at hg
      subst hg
      refine ⟨rfl, ?_⟩
      intro r hr
      obtain ⟨r', _, rfl⟩ := List.mem_map.1 hr
      rfl
    · intro hUS
      rw [hgdef, if_neg (by simp [hUS])] at hg
      subst hg
      exact ⟨rfl, gridStage_mix_none B p.grid_size p.overlap gdf hexagonal hexSin⟩
    · rw [← hg]
      exact hadj.symm

/-! ## Characterization of the dense square lattice -/

lemma withIDs_map_geometry {G : Type} (l : List G) :
    (withIDs l).map GridRow.geometry = l := by
  unfold withIDs
  rw [List.map_map]
  have h : (GridRow.geometry ∘ fun e : ℕ × G => GridRow.mk (e.1 + 1) e.2 none none) =
      Prod.snd := rfl
  rw [h, List.enum_map_snd]

lemma range_map_add_one (n : Nat) : (List.range n).map (· + 1) = List.range' 1 n := by
  rw [List.range'_eq_map_range]
  exact List.map_congr_left (fun a _ => Nat.add_comm a 1)

lemma withIDs_map_ID {G : Type} (l : List G) :
    (withIDs l).map GridRow.ID = List.range' 1 l.length := by
  unfold withIDs
  rw [List.map_map]
  have h : (GridRow.ID ∘ fun e : ℕ × G => GridRow.mk (e.1 + 1) e.2 none none) =
      (fun e : ℕ × G => e.1 + 1) := rfl
  rw [h]
  have h2 : (fun e : ℕ × G => e.1 + 1) = (· + 1) ∘ Prod.fst := rfl
  rw [h2, ← List.map_map, List.enum_map_fst, range_map_add_one]

lemma sum_map_const {α : Type} (l : List α) (c : Nat) :
    (l.map (fun _ => c)).sum = l.length * c := by
  induction l with
  | nil => simp
  | cons a t ih => simp [ih, Nat.succ_mul, Nat.add_comm]

lemma length_flatMap_const {α β : Type} (l : List α) (f : α → List β) (c : Nat)
    (h : ∀ a ∈ l, (f a).length = c) : (l.flatMap f).length = l.length * c := by
  induction l with
  | nil => simp
  | cons a t ih =>
    rw [List.flatMap_cons, List.length_append, h a (List.mem_cons_self a t),
      ih (fun x hx => h x (List.mem_cons_of_mem _ hx)), List.length_cons, Nat.succ_mul,
      Nat.add_comm]

lemma flatMap_of_map {α β γ : Type} (l : List α) (f : α → β) (h : β → List γ) :
    (l.map f).flatMap h = l.flatMap (fun a => h (f a)) := by
  induction l with
  | nil => simp
  | cons a t ih => simp [ih]

lemma ceil_cols (g : Nat) (s : ℚ) (hs : 0 < s) :
    (⌈((g : ℚ) * s + s) / s⌉).toNat = g + 1 := by
  have h1 : ((g : ℚ) * s + s) / s = (g : ℚ) + 1 := by
    rw [div_eq_iff hs.ne']
    ring
  rw [h1]
  have h2 : ((g : ℚ) + 1) = ((g + 1 : ℕ) : ℚ) := by push_cast; ring
  rw [h2, Int.ceil_natCast]
  exact Int.toNat_natCast _

lemma withIDs_length {G : Type} (l : List G) : (withIDs l).length = l.length := by
  unfold withIDs
  rw [List.length_map, List.enum_length]

/-- Full characterization of the dense square lattice under exact rational
arithmetic: `gs + 1` columns starting at `lon_min` in steps of the cell
size (the last column starting exactly at `lon_max`), `rowCount` rows
reaching at least one cell past `lat_max`, ids `1..n` in column-major
order. -/
lemma squareGridDense_char (B : GeoBackend) (gs : Nat) (gdf : List (County B.G))
    (lnm ltm lnM ltM s : ℚ)
    (hb : totalBounds B gdf = (lnm, ltm, lnM, ltM))
    (hs : s = (lnM - lnm) / (gs : ℚ))
    (hgs : 1 ≤ gs) (hlon : lnm < lnM) (hlat : ltm ≤ ltM) :
    cellSize B gs gdf = s ∧
    0 < s ∧
    (squareGridDense B gs gdf).map GridRow.geometry =
      (List.range (gs + 1)).flatMap (fun a : ℕ =>
        (List.range (rowCount B gs gdf)).map (fun b : ℕ =>
          B.box (lnm + (a : ℚ) * s) (ltm + (b : ℚ) * s)
            (lnm + (a : ℚ) * s + s) (ltm + (b : ℚ) * s + s))) ∧
    lnm + (gs : ℚ) * s = lnM ∧
    1 ≤ rowCount B gs gdf ∧
    ltM + s ≤ ltm + (rowCount B gs gdf : ℚ) * s ∧
    (squareGridDense B gs gdf).map GridRow.ID =
      List.range' 1 ((gs + 1) * rowCount B gs gdf) ∧
    (squareGridDense B gs gdf).length = (gs + 1) * rowCount B gs gdf := by
  have h1 : (totalBounds B gdf).1 = lnm := by rw [hb]
  have h2 : (totalBounds B gdf).2.1 = ltm := by rw [hb]
  have h3 : (totalBounds B gdf).2.2.1 = lnM := by rw [hb]
  have h4 : (totalBounds B gdf).2.2.2 = ltM := by rw [hb]
  have hcs : cellSize B gs gdf = s := by
    unfold cellSize
    rw [h1, h3, hs]
  have hgpos : (0 : ℚ) < (gs : ℚ) := by
    exact_mod_cast Nat.lt_of_lt_of_le Nat.zero_lt_one hgs
  have hspos : 0 < s := by
    rw [hs]
    exact div_pos (sub_pos.2 hlon) hgpos
  have hwidth : (gs : ℚ) * s = lnM - lnm := by
    rw [hs]
    field_simp
  have hrc : rowCount B gs gdf = (⌈(ltM + s - ltm) / s⌉).toNat := by
    unfold rowCount
    rw [h2, h4, hcs]
  have hcols : arange lnm (lnM + s) s =
      (List.range (gs + 1)).map (fun k : ℕ => lnm + (k : ℚ) * s) := by
    unfold arange
    rw [if_pos hspos]
    have hcount : (⌈(lnM + s - lnm) / s⌉).toNat = gs + 1 := by
      rw [show lnM + s - lnm = (gs : ℚ) * s + s by linarith [hwidth]]
      exact ceil_cols gs s hspos
    rw [hcount]
  have hrows : arange ltm (ltM + s) s =
      (List.range (rowCount B gs gdf)).map (fun k : ℕ => ltm + (k : ℚ) * s) := by
    unfold arange
    rw [if_pos hspos, hrc]
  have hcells : (squareGridDense B gs gdf).map GridRow.geometry =
      (List.range (gs + 1)).flatMap (fun a : ℕ =>
        (List.range (rowCount B gs gdf)).map (fun b : ℕ =>
          B.box (lnm + (a : ℚ) * s) (ltm + (b : ℚ) * s)
            (lnm + (a : ℚ) * s + s) (ltm + (b : ℚ) * s + s))) := by
    unfold squareGridDense
    rw [withIDs_map_geometry, h1, h2, h3, h4, hcs, hcols, hrows, flatMap_of_map]
    simp only [List.map_map]
    rfl
  have hR1 : 1 ≤ rowCount B gs gdf := by
    have hx : (1 : ℚ) ≤ (ltM + s - ltm) / s := by
      rw [le_div_iff₀ hspos]
      linarith
    have hceil : (1 : ℤ) ≤ ⌈(ltM + s - ltm) / s⌉ := by
      have := Int.ceil_le_ceil hx
      rwa [Int.ceil_one] at this
    rw [hrc]
    omega
  have hcover : ltM + s ≤ ltm + (rowCount B gs gdf : ℚ) * s := by
    have hceil := Int.le_ceil ((ltM + s - ltm) / s)
    have hnn : (0 : ℤ) ≤ ⌈(ltM + s - ltm) / s⌉ := by
      have hx : (1 : ℚ) ≤ (ltM + s - ltm) / s := by
        rw [le_div_iff₀ hspos]
        linarith
      have := Int.ceil_le_ceil hx
      rw [Int.ceil_one] at this
      omega
    have hcast : ((rowCount B gs gdf : ℕ) : ℚ) = ((⌈(ltM + s - ltm) / s⌉ : ℤ) : ℚ) := by
      rw [hrc]
      exact_mod_cast congrArg (fun z : ℤ => (z : ℚ)) (Int.toNat_of_nonneg hnn)
    have hge : (ltM + s - ltm) / s ≤ ((rowCount B gs gdf : ℕ) : ℚ) := by
      rw [hcast]
      exact hceil
    have := (div_le_iff₀ hspos).1 hge
    linarith
  have hlen : (squareGridDense B gs gdf).length = (gs + 1) * rowCount B gs gdf := by
    have hlm := congrArg List.length hcells
    rw [List.length_map] at hlm
    rw [hlm, length_flatMap_const _ _ (rowCount B gs gdf)
      (fun a _ => by rw [List.length_map, List.length_range]), List.length_range]
  have hids : (squareGridDense B gs gdf).map GridRow.ID =
      List.range' 1 ((gs + 1) * rowCount B gs gdf) := by
    have : (squareGridDense B gs gdf).map GridRow.ID =
        List.range' 1 ((squareGridDense B gs gdf).length) := by
      unfold squareGridDense
      rw [withIDs_map_ID, withIDs_length]
    rw [this, hlen]
  exact ⟨hcs, hspos, hcells, by linarith [hwidth], hR1, hcover, hids, hlen⟩

lemma one_le_ceilSqrt {n : Nat} (h : 1 ≤ n) : 1 ≤ ceilSqrt n := by
  unfold ceilSqrt
  cases hf : (List.range (n + 1)).find? (fun k => n ≤ k * k) with
  | none => simpa using h
  | some k =>
    have hk := List.find?_some hf
    simp only [decide_eq_true_eq] at hk
    simp only [Option.getD_some]
    by_contra h0
    push_neg at h0
    have hk0 : k = 0 := by omega
    subst hk0
    simp at hk
    omega

/-- C5 (amended).  The square-tiling cell edge length equals
`(lon_max - lon_min) / ⌈√resolution⌉` (the constructor stores
`int(np.ceil(np.sqrt(resolution)))`, so the divisor is the *ceiling* of the
square root, not the square root itself); the emitted cells form the dense
rectangular lattice anchored at `(lon_min, lat_min)` in column-major order,
its last column starting exactly at `lon_max` (one cell past the bounds) and
its rows reaching at least one cell past `lat_max`; ids are sequential from
`1`. -/
theorem C5_square_tiling_amended (B : GeoBackend) (resolution : Nat) (p : MPATPolygon)
    (gdf : List (County B.G)) (lnm ltm lnM ltM : ℚ)
    (hb : totalBounds B gdf = (lnm, ltm, lnM, ltM))
    (hres : 1 ≤ resolution) (hp : p.grid_size = ceilSqrt resolution)
    (hlon : lnm < lnM) (hlat : ltm ≤ ltM) :
    cellSize B p.grid_size gdf = (lnM - lnm) / ((ceilSqrt resolution : ℕ) : ℚ) ∧
    (squareGridDense B p.grid_size gdf).map GridRow.geometry =
      (List.range (p.grid_size + 1)).flatMap (fun a : ℕ =>
        (List.range (rowCount B p.grid_size gdf)).map (fun b : ℕ =>
          B.box (lnm + (a : ℚ) * cellSize B p.grid_size gdf)
            (ltm + (b : ℚ) * cellSize B p.grid_size gdf)
            (lnm + (a : ℚ) * cellSize B p.grid_size gdf + cellSize B p.grid_size gdf)
            (ltm + (b : ℚ) * cellSize B p.grid_size gdf + cellSize B p.grid_size gdf))) ∧
    lnm + (p.grid_size : ℚ) * cellSize B p.grid_size gdf = lnM ∧
    ltM + cellSize B p.grid_size gdf ≤
      ltm + (rowCount B p.grid_size gdf : ℚ) * cellSize B p.grid_size gdf ∧
    (squareGridDense B p.grid_size gdf).map GridRow.ID =
      List.range' 1 ((p.grid_size + 1) * rowCount B p.grid_size gdf) := by
  have hgs : 1 ≤ p.grid_size := hp ▸ one_le_ceilSqrt hres
  obtain ⟨hcs, hspos, hcells, hwidth, hR1, hcover, hids, hlen⟩ :=
    squareGridDense_char B p.grid_size gdf lnm ltm lnM ltM
      ((lnM - lnm) / (p.grid_size : ℚ)) hb rfl hgs hlon hlat
  refine ⟨?_, ?_, ?_, ?_, ?_⟩
  · rw [← hp]
    exact hcs
  · rw [hcs]
    exact hcells
  · rw [hcs]
    exact hwidth
  · rw [hcs]
    exact hcover
  · exact hids

/-- C5 counterexample: with `resolution = 2` over unit-square bounds the
constructor stores `grid_size = ⌈√2⌉ = 2` and the cell edge length is
`1/2`, which does not satisfy the relation `edge² · resolution = width²`
demanded by `edge = width / √resolution`. -/
theorem C5_sqrt_resolution_counterexample :
    MPATPolygon.init none 2 true none none true "EPSG:4326" =
      Except.ok ⟨none, 2, true, none, none, true, "EPSG:4326"⟩ ∧
    cellSize BoxBackend 2 gdfUnit = 1/2 ∧
    ¬(cellSize BoxBackend 2 gdfUnit * cellSize BoxBackend 2 gdfUnit * 2 = 1 * 1) :=
  ⟨rfl, by decide, by decide⟩

/-- Configuration stored by `MPATPolygon.init` for `resolution = 2`. -/
def pC5 : MPATPolygon := ⟨none, 2, true, none, none, true, "EPSG:4326"⟩

theorem C5_square_tiling_amended_witness :
    totalBounds BoxBackend gdfUnit = (0, 0, 1, 1) ∧
    pC5.grid_size = ceilSqrt 2 ∧
    cellSize BoxBackend pC5.grid_size gdfUnit = (1 - 0) / ((ceilSqrt 2 : ℕ) : ℚ) ∧
    0 + (pC5.grid_size : ℚ) * cellSize BoxBackend pC5.grid_size gdfUnit = 1 :=
  ⟨by decide, by decide,
    (C5_square_tiling_amended BoxBackend 2 pC5 gdfUnit 0 0 1 1 (by decide) (by decide)
      (by decide) (by decide) (by decide)).1,
    (C5_square_tiling_amended BoxBackend 2 pC5 gdfUnit 0 0 1 1 (by decide) (by decide)
      (by decide) (by decide) (by decide)).2.2.1⟩

lemma boxIntersects_of_interArea_ne_zero {b1 b2 : Box} (h : boxInterArea b1 b2 ≠ 0) :
    boxIntersects b1 b2 = true ∧ boxIntersects b2 b1 = true := by
  unfold boxInterArea at h
  obtain ⟨hx, hy⟩ := mul_ne_zero_iff.1 h
  have hx' : 0 < min b1.xmax b2.xmax - max b1.xmin b2.xmin := by
    rcases le_or_lt (min b1.xmax b2.xmax - max b1.xmin b2.xmin) 0 with hle | hlt
    · exact absurd (max_eq_left hle) hx
    · exact hlt
  have hy' : 0 < min b1.ymax b2.ymax - max b1.ymin b2.ymin := by
    rcases le_or_lt (min b1.ymax b2.ymax - max b1.ymin b2.ymin) 0 with hle | hlt
    · exact absurd (max_eq_left hle) hy
    · exact hlt
  have hxlt : max b1.xmin b2.xmin < min b1.xmax b2.xmax := by linarith
  have hylt : max b1.ymin b2.ymin < min b1.ymax b2.ymax := by linarith
  obtain ⟨hx1, hx2⟩ := max_lt_iff.1 hxlt
  obtain ⟨hy1, hy2⟩ := max_lt_iff.1 hylt
  constructor <;>
    · unfold boxIntersects
      rw [decide_eq_true_iff]
      refine ⟨?_, ?_, ?_, ?_⟩ <;>
        first
        | exact le_of_lt (lt_of_lt_of_le hx1 (min_le_right _ _))
        | exact le_of_lt (lt_of_lt_of_le hx1 (min_le_left _ _))
        | exact le_of_lt (lt_of_lt_of_le hx2 (min_le_right _ _))
        | exact le_of_lt (lt_of_lt_of_le hx2 (min_le_left _ _))
        | exact le_of_lt (lt_of_lt_of_le hy1 (min_le_right _ _))
        | exact le_of_lt (lt_of_lt_of_le hy1 (min_le_left _ _))
        | exact le_of_lt (lt_of_lt_of_le hy2 (min_le_right _ _))
        | exact le_of_lt (lt_of_lt_of_le hy2 (min_le_left _ _))

/-- C6 (amended).  With `resolution = 1` on non-degenerate bounds the dense
grid's *first* cell is the square of edge `lon_max - lon_min` anchored at
`(lon_min, lat_min)`; it covers the full extent whenever the height of the
bounds does not exceed their width; the grid nevertheless contains more than
one cell (the lattice is extended one cell past each upper bound); and when
the source frame is a single polygon whose intersection with that first cell
has nonzero area, the cell's coverage-share mixture is the single entry with
proportion exactly `1`. -/
theorem C6_resolution_one_amended (gdf : List (County Box)) (lnm ltm lnM ltM : ℚ)
    (c : County Box) (hb : totalBounds BoxBackend gdf = (lnm, ltm, lnM, ltM))
    (hlon : lnm < lnM) (hlat : ltm ≤ ltM) :
    Option.map GridRow.geometry (squareGridDense BoxBackend 1 gdf).head? =
      some (Box.mk lnm ltm (lnm + (lnM - lnm)) (ltm + (lnM - lnm))) ∧
    (ltM - ltm ≤ lnM - lnm → ∀ pnt, inClosure ⟨lnm, ltm, lnM, ltM⟩ pnt →
      inClosure ⟨lnm, ltm, lnm + (lnM - lnm), ltm + (lnM - lnm)⟩ pnt) ∧
    1 < (squareGridDense BoxBackend 1 gdf).length ∧
    (gdf = [c] →
      boxInterArea (Box.mk lnm ltm (lnm + (lnM - lnm)) (ltm + (lnM - lnm))) c.geometry ≠ 0 →
      MPAT_get_grid_cell_mix BoxBackend gdf
        (Box.mk lnm ltm (lnm + (lnM - lnm)) (ltm + (lnM - lnm))) = some [(c.GEOID, 1)]) := by
  have hs1 : lnM - lnm = (lnM - lnm) / ((1 : ℕ) : ℚ) := by
    rw [Nat.cast_one, div_one]
  obtain ⟨hcs, hspos, hcells, hwidth, hR1, hcover, hids, hlen⟩ :=
    squareGridDense_char BoxBackend 1 gdf lnm ltm lnM ltM (lnM - lnm) hb hs1
      (le_refl 1) hlon hlat
  refine ⟨?_, ?_, ?_, ?_⟩
  · rw [← List.head?_map, hcells]
    obtain ⟨R', hR'⟩ : ∃ R', rowCount BoxBackend 1 gdf = R' + 1 :=
      ⟨rowCount BoxBackend 1 gdf - 1, by omega⟩
    rw [show List.range 2 = [0, 1] from rfl, hR', List.range_succ_eq_map]
    simp only [List.flatMap_cons, List.flatMap_nil, List.map_cons, List.cons_append,
      List.head?_cons]
    norm_num
  · rintro hwh pnt ⟨ha1, ha2, ha3, ha4⟩
    exact ⟨ha1, by simp only [] at ha2 ⊢; linarith, ha3, by simp only [] at ha4 ⊢; linarith⟩
  · omega
  · rintro rfl hA
    have hint : BoxBackend.intersects c.geometry
        (Box.mk lnm ltm (lnm + (lnM - lnm)) (ltm + (lnM - lnm))) = true :=
      (boxIntersects_of_interArea_ne_zero hA).2
    have hA' : BoxBackend.interArea
        (Box.mk lnm ltm (lnm + (lnM - lnm)) (ltm + (lnM - lnm))) c.geometry ≠ 0 := hA
    have hfil : ([c].filter (fun x => BoxBackend.intersects x.geometry
        (Box.mk lnm ltm (lnm + (lnM - lnm)) (ltm + (lnM - lnm))))) = [c] := by
      rw [List.filter_cons, if_pos hint]
      rfl
    unfold MPAT_get_grid_cell_mix
    simp only [hfil, List.length_cons, List.length_nil, List.map_cons, List.map_nil,
      List.sum_cons, List.sum_nil, add_zero]
    rw [if_neg (by omega : ¬(0 + 1 = 0)), if_neg hA', div_self hA']
    rfl

/-- C6 counterexample: `resolution = 1` over the unit square yields a grid of
four cells (the lattice is extended one cell past each upper bound and every
cell still intersects the source polygon at its boundary), not exactly
one. -/
theorem C6_resolution_one_counterexample :
    MPATPolygon.init none 1 true none none true "EPSG:4326" = Except.ok pRes1 ∧
    (MPAT_create_grid BoxBackend pRes1 gdfUnit).length = 4 ∧ (4 : ℕ) ≠ 1 :=
  ⟨rfl, by decide, by decide⟩

theorem C6_resolution_one_amended_witness :
    totalBounds BoxBackend gdfUnit = (0, 0, 1, 1) ∧
    (0 : ℚ) < 1 ∧
    1 < (squareGridDense BoxBackend 1 gdfUnit).length ∧
    MPAT_get_grid_cell_mix BoxBackend gdfUnit
      (Box.mk 0 0 (0 + (1 - 0)) (0 + (1 - 0))) = some [("g1", 1)] := by
  have h := C6_resolution_one_amended gdfUnit 0 0 1 1 ⟨"g1", ⟨0, 0, 1, 1⟩⟩ (by decide)
    (by decide) (by decide)
  exact ⟨by decide, by decide, h.2.2.1, h.2.2.2 rfl (by decide)⟩

/-- C7 counterexample: a `countryiso` run (`US = False`) returns a result
whose cells all have an *unattached* mixture column, contradicting
"mixture already attached to every cell". -/
theorem C7_counterexample :
    (MPAT_get_grid_and_adj_matrix BoxBackend pSerbia gdfUnit false 0).isSome = true ∧
    Option.map (fun r => r.1.map GridRow.mix)
        (MPAT_get_grid_and_adj_matrix BoxBackend pSerbia gdfUnit false 0) =
      some [none, none, none, none] :=
  ⟨by decide, by decide⟩

/-- The post-filtering grid, with mixture attached, of the US resolution-1
run over the unit square. -/
def gC7 : List (GridRow Box) :=
  (gridStage BoxBackend pRes1.grid_size pRes1.overlap gdfUnit false 0).map
    (MPAT_attachMix BoxBackend gdfUnit)

theorem C7_pipeline_order_amended_witness :
    MPAT_get_grid_and_adj_matrix BoxBackend pRes1 gdfUnit false 0 =
      some (gC7, calculate_adjacency_matrix BoxBackend (gC7.map GridRow.geometry)) ∧
    pRes1.US = true ∧
    (∀ r ∈ gC7, r.mix.isSome = true) := by
  have hrun : MPAT_get_grid_and_adj_matrix BoxBackend pRes1 gdfUnit false 0 =
      some (gC7, calculate_adjacency_matrix BoxBackend (gC7.map GridRow.geometry)) := rfl
  exact ⟨hrun, rfl,
    ((C7_pipeline_order_amended BoxBackend pRes1 gdfUnit false 0 gC7
      (calculate_adjacency_matrix BoxBackend (gC7.map GridRow.geometry)) hrun).1 rfl).2⟩

/-! ## Analytic lattice adjacency
(`src/TOOL/GenericGridAdjacencyMatrix.py`)

`rook_adjacency_matrix(n)` and `queen_adjacency_matrix(n)` build an
`n² × n²` zero matrix and, visiting each lattice coordinate `(i, j)` with
`idx = i*n + j`, write `1` into row `idx` at the guarded neighbor columns
(4 for rook, 8 for queen).  (The file never imports numpy — calling it as
shipped raises `NameError: np` — but the algorithm itself is as modelled
here.) -/

/-- `matrix[r, c] = 1`, leaving every other entry unchanged. -/
def setOne (m : Nat → Nat → ℤ) (r c : Nat) : Nat → Nat → ℤ :=
  fun a b => if a = r ∧ b = c then 1 else m a b

/-- The body of one `(i, j)` visit of `rook_adjacency_matrix`. -/
def rookVisit (n : Nat) (m : Nat → Nat → ℤ) (i j : Nat) : Nat → Nat → ℤ :=
  let idx := i * n + j
  let m1 := if 0 < i then setOne m idx (idx - n) else m
  let m2 := if i < n - 1 then setOne m1 idx (idx + n) else m1
  let m3 := if 0 < j then setOne m2 idx (idx - 1) else m2
  if j < n - 1 then setOne m3 idx (idx + 1) else m3

/-- The body of one `(i, j)` visit of `queen_adjacency_matrix`. -/
def queenVisit (n : Nat) (m : Nat → Nat → ℤ) (i j : Nat) : Nat → Nat → ℤ :=
  let idx := i * n + j
  let m1 := if 0 < i then setOne m idx (idx - n) else m
  let m2 := if i < n - 1 then setOne m1 idx (idx + n) else m1
  let m3 := if 0 < j then setOne m2 idx (idx - 1) else m2
  let m4 := if j < n - 1 then setOne m3 idx (idx + 1) else m3
  let m5 := if 0 < i ∧ 0 < j then setOne m4 idx (idx - n - 1) else m4
  let m6 := if 0 < i ∧ j < n - 1 then setOne m5 idx (idx - n + 1) else m5
  let m7 := if i < n - 1 ∧ 0 < j then setOne m6 idx (idx + n - 1) else m6
  if i < n - 1 ∧ j < n - 1 then setOne m7 idx (idx + n + 1) else m7

/-- Row-major visit order of `for i in range(n): for j in range(n)`. -/
def gridPairs (n : Nat) : List (Nat × Nat) :=
  (List.range n).flatMap (fun i => (List.range n).map (fun j => (i, j)))

/-- `GenericGridAdjacencyMatrix.rook_adjacency_matrix`. -/
def rook_adjacency_matrix (n : Nat) : Nat → Nat → ℤ :=
  (gridPairs n).foldl (fun m p => rookVisit n m p.1 p.2) (fun _ _ => 0)

/-- `GenericGridAdjacencyMatrix.queen_adjacency_matrix`. -/
def queen_adjacency_matrix (n : Nat) : Nat → Nat → ℤ :=
  (gridPairs n).foldl (fun m p => queenVisit n m p.1 p.2) (fun _ _ => 0)

/-- The 3×3 unrotated, gapless square tiling of the unit square, enumerated
column-major exactly as `create_grid` enumerates cells. -/
def tiling3 : List Box :=
  (List.range 3).flatMap (fun i : ℕ => (List.range 3).map (fun j : ℕ =>
    ⟨(i : ℚ) / 3, (j : ℚ) / 3, ((i : ℚ) + 1) / 3, ((j : ℚ) + 1) / 3⟩))

/-- C3 counterexample: on the 3×3 unit tiling, cells 0 and 4 share exactly
one corner point, so the geometric touch test marks the pair `1`, while the
rook generator leaves it `0` — the rook matrix is *not* the geometric touch
matrix. -/
theorem C3_rook_touch_counterexample :
    calculate_adjacency_matrix BoxBackend tiling3 0 4 = 1 ∧
    rook_adjacency_matrix 3 0 4 = 0 ∧ (1 : ℤ) ≠ 0 :=
  ⟨by decide, by decide, by decide⟩

/-- C3 (amended).  For the 3×3 unrotated gapless square tiling the geometric
touch test coincides with the *queen* (8-neighbor) analytic generator, entry
by entry; the total number of unit entries is 40 (the 12 edge-adjacent pairs
and the 8 corner-only pairs, each counted in both orientations) — the rook
generator differs exactly at the corner-only pairs, which the geometric
touch test marks `1`. -/
theorem C3_queen_matches_touch_amended :
    (∀ a b : Fin 9,
      calculate_adjacency_matrix BoxBackend tiling3 (a : ℕ) (b : ℕ) =
        queen_adjacency_matrix 3 (a : ℕ) (b : ℕ)) ∧
    ((List.range 9).map (fun a => ((List.range 9).map (fun b =>
      calculate_adjacency_matrix BoxBackend tiling3 a b)).sum)).sum = 40 :=
  ⟨by decide, by decide⟩

theorem C10_constructor_region_validation_witness :
    MPATPolygon.init none 5 true none none true "EPSG:4326" =
      Except.ok ⟨none, 3, true, none, none, true, "EPSG:4326"⟩ ∧
    ((⟨none, 3, true, none, none, true, "EPSG:4326"⟩ : MPATPolygon).grid_size = ceilSqrt 5 ∧
     (⟨none, 3, true, none, none, true, "EPSG:4326"⟩ : MPATPolygon).US = true ∧
     (⟨none, 3, true, none, none, true, "EPSG:4326"⟩ : MPATPolygon).countryiso = none) :=
  ⟨rfl, (C10_constructor_region_validation none 5 true none none true "EPSG:4326").2
    ⟨none, 3, true, none, none, true, "EPSG:4326"⟩ rfl⟩
